import Mathlib

/-
  Verification development for the pokerth-tracker statistics engine.

  The Python sources embedded here:
    src/src/database/models.py      (HandAction, PlayerStats and its derived metrics)
    src/src/database/log_parser.py  (LogParser query layer over one .pdb source)
    src/src/stats/calculator.py     (StatsCalculator: per-hand classification and
                                     per-player accumulation)
    src/src/database/stats_db.py    (StatsDB: persisted aggregate store, baselines,
                                     merge_stats, clear_all_stats)
    src/src/watcher/log_watcher.py  (LogWatcher: live polling, aggregated view,
                                     save_pending_stats, import_all_logs)

  Counters are modelled as Int (Python integers are unbounded and deltas may be
  negative); ids and seats as Nat.  A source file (.pdb) is modelled by its two
  SQLite tables: Player rows and Action rows, the latter listed in ActionID order.
  Python dictionaries keyed by player name / game id are modelled by association
  lists; dict construction in which a later row overwrites an earlier one is
  mirrored by a left fold keeping the last match.
-/

namespace PokerTH

/-- Lower-case an ASCII letter; mirrors Python str.lower() on the ASCII
action labels used by the log format. -/
def lowerChar (c : Char) : Char :=
  if 65 ≤ c.toNat ∧ c.toNat ≤ 90 then Char.ofNat (c.toNat + 32) else c

/-- Substring occurrence test on character lists: mirrors Python's
`pat in s` for strings. -/
def subOccurs (pat : List Char) : List Char → Bool
  | [] => pat.isEmpty
  | c :: cs => List.isPrefixOf pat (c :: cs) || subOccurs pat cs

/-- Whether `pat` occurs as a substring of `s` (Python `pat in s`). -/
def strContains (s pat : String) : Bool := subOccurs pat.data s.data

/-- ASCII lower-casing of a string (Python `s.lower()`). -/
def strLower (s : String) : String := String.mk (s.data.map lowerChar)

/-- models.py HandAction: one action row of a source's Action table.
`betting_round`: 0 = preflop, 1 = flop, 2 = turn, 3 = river, 4 = showdown. -/
structure HandAction where
  hand_id : Nat
  game_id : Nat
  betting_round : Nat
  player_seat : Nat
  action : String
  amount : Option Int := none
deriving Repr, DecidableEq

/-- One row of a source's Player table: a player name occupying a seat in a game. -/
structure PlayerRow where
  player : String
  gameId : Nat
  seat : Nat
deriving Repr, DecidableEq

/-- One .pdb log source: its Player table and its Action table, the actions
listed in ActionID order. -/
structure Source where
  path : String
  players : List PlayerRow
  actions : List HandAction
deriving Repr, DecidableEq

/-- models.py PlayerStats: the flat counter record of one player
(one scope: one source, or the merged aggregate). -/
structure PlayerStats where
  player_name : String
  total_hands : Int := 0
  vpip_hands : Int := 0
  pfr_hands : Int := 0
  total_bets : Int := 0
  total_calls : Int := 0
  three_bet_opportunities : Int := 0
  three_bet_made : Int := 0
  cbet_opportunities : Int := 0
  cbet_made : Int := 0
  fold_to_3bet_opportunities : Int := 0
  fold_to_3bet_made : Int := 0
  fold_to_cbet_opportunities : Int := 0
  fold_to_cbet_made : Int := 0
  hands_saw_flop : Int := 0
  hands_went_to_showdown : Int := 0
  showdowns_won : Int := 0
deriving Repr, DecidableEq

/-- The sixteen counters of a record, in declaration order; used to state
field-wise properties compactly. -/
def counterVec (s : PlayerStats) : List Int :=
  [s.total_hands, s.vpip_hands, s.pfr_hands, s.total_bets, s.total_calls,
   s.three_bet_opportunities, s.three_bet_made, s.cbet_opportunities, s.cbet_made,
   s.fold_to_3bet_opportunities, s.fold_to_3bet_made,
   s.fold_to_cbet_opportunities, s.fold_to_cbet_made,
   s.hands_saw_flop, s.hands_went_to_showdown, s.showdowns_won]

/-- calculator.py StatsCalculator.VPIP_ACTIONS. -/
def VPIP_ACTIONS : List String := ["calls", "bets", "is all in with"]

/-- calculator.py StatsCalculator.PFR_ACTIONS. -/
def PFR_ACTIONS : List String := ["bets", "is all in with"]

/-- calculator.py StatsCalculator.AGGRESSIVE_ACTIONS. -/
def AGGRESSIVE_ACTIONS : List String := ["bets", "is all in with"]

/-- calculator.py StatsCalculator.PASSIVE_ACTIONS. -/
def PASSIVE_ACTIONS : List String := ["calls"]

/-- calculator.py StatsCalculator.RAISE_ACTIONS. -/
def RAISE_ACTIONS : List String := ["bets", "is all in with"]

/-- calculator.py StatsCalculator.FOLD_ACTIONS. -/
def FOLD_ACTIONS : List String := ["folds"]

/-- Python `any(p in action_type for p in pats)` where `action_type` is the
lower-cased action text. -/
def matchesAny (pats : List String) (t : String) : Bool :=
  pats.any (fun p => strContains t p)

/-- The lower-cased action label (`action.action.lower()`). -/
def actLower (a : HandAction) : String := strLower a.action

/-- Python `"blind" in action_type`. -/
def isBlindAct (a : HandAction) : Bool := strContains (actLower a) "blind"

/-- Whether the action matches the VPIP verb set. -/
def isVpipAct (a : HandAction) : Bool := matchesAny VPIP_ACTIONS (actLower a)

/-- Whether the action matches the PFR verb set. -/
def isPfrAct (a : HandAction) : Bool := matchesAny PFR_ACTIONS (actLower a)

/-- Whether the action matches the raise verb set. -/
def isRaiseAct (a : HandAction) : Bool := matchesAny RAISE_ACTIONS (actLower a)

/-- Whether the action matches the fold verb set. -/
def isFoldAct (a : HandAction) : Bool := matchesAny FOLD_ACTIONS (actLower a)

/-- Whether the action matches the aggressive verb set (AF numerator). -/
def isAggAct (a : HandAction) : Bool := matchesAny AGGRESSIVE_ACTIONS (actLower a)

/-- Whether the action matches the passive verb set (AF denominator). -/
def isCallAct (a : HandAction) : Bool := matchesAny PASSIVE_ACTIONS (actLower a)

/-- Build the last-match lookup of a Python dict comprehension
(later pair overwrites an earlier one with the same key). -/
def lookupLast (l : List (Nat × Nat)) (g : Nat) : Option Nat :=
  l.foldl (fun acc p => if p.1 = g then some p.2 else acc) none

/-- The (game id, seat) pairs of the Player-table rows carrying this player's
name, in row order (log_parser.py `player_games` dict source). -/
def playerSeatPairs (src : Source) (name : String) : List (Nat × Nat) :=
  src.players.filterMap (fun r => if r.player = name then some (r.gameId, r.seat) else none)

/-- log_parser.py get_player_seats / `player_games.get(game_id)`: the seat of
the player in a game, none if they did not sit in it. -/
def seatOf (src : Source) (name : String) (gid : Nat) : Option Nat :=
  lookupLast (playerSeatPairs src name) gid

/-- Insert an element into a list if not already present (set-accumulation). -/
def insertUnique [DecidableEq α] (l : List α) (x : α) : List α :=
  if x ∈ l then l else l ++ [x]

/-- Deduplicate a list keeping first occurrences (models a Python set built by
repeated insertion, an order-irrelevant collection). -/
def dedupFold [DecidableEq α] (l : List α) : List α :=
  l.foldl insertUnique []

/-- The hand key of an action row. -/
def keyOfAct (a : HandAction) : Nat × Nat := (a.game_id, a.hand_id)

/-- log_parser.py get_all_actions_by_player: all actions attributed to the
player's seat in any of their games, all betting rounds. -/
def playerAllActions (src : Source) (name : String) : List HandAction :=
  src.actions.filter (fun a => seatOf src name a.game_id == some a.player_seat)

/-- log_parser.py get_hands_played_by_player: the distinct hand keys carrying
at least one action by the player's seat. -/
def handsPlayed (src : Source) (name : String) : List (Nat × Nat) :=
  dedupFold ((playerAllActions src name).map keyOfAct)

/-- log_parser.py get_preflop_actions_by_player: the player's own preflop
actions across their games. -/
def playerPreflopActions (src : Source) (name : String) : List HandAction :=
  src.actions.filter
    (fun a => a.betting_round == 0 && seatOf src name a.game_id == some a.player_seat)

/-- The keys of calculator.py `preflop_by_hand`: hands in which the player has
at least one preflop action. -/
def preflopHandKeys (src : Source) (name : String) : List (Nat × Nat) :=
  dedupFold ((playerPreflopActions src name).map keyOfAct)

/-- The group of `preflop_by_hand` for one hand key: the player's own preflop
actions of that hand, in action order. -/
def playerPreflopOfHand (src : Source) (name : String) (k : Nat × Nat) : List HandAction :=
  (playerPreflopActions src name).filter (fun a => a.game_id == k.1 && a.hand_id == k.2)

/-- calculator.py `_get_all_preflop_actions_by_hand` entry for one hand key:
all preflop actions of the hand when the key is one of the player's hands,
`[]` otherwise (the dict's `.get(hand_key, [])` fallback). -/
def allPreflopOfHand (src : Source) (name : String) (k : Nat × Nat) : List HandAction :=
  if k ∈ handsPlayed src name then
    src.actions.filter
      (fun a => a.betting_round == 0 && a.game_id == k.1 && a.hand_id == k.2)
  else []

/-- log_parser.py get_actions(game_id, hand_id, betting_round=1): the flop
actions of one hand, in action order. -/
def flopActionsOf (src : Source) (k : Nat × Nat) : List HandAction :=
  src.actions.filter (fun a => a.game_id == k.1 && a.hand_id == k.2 && a.betting_round == 1)

/-- The showdown-round actions of one hand. -/
def showdownActionsOf (src : Source) (k : Nat × Nat) : List HandAction :=
  src.actions.filter (fun a => a.game_id == k.1 && a.hand_id == k.2 && a.betting_round == 4)

/-- log_parser.py hand_has_showdown. -/
def handHasShowdown (src : Source) (k : Nat × Nat) : Bool :=
  src.actions.any (fun a => a.game_id == k.1 && a.hand_id == k.2 && a.betting_round == 4)

/-- log_parser.py get_showdown_winner: the seat of the first showdown-round
action whose text contains "wins" (SQLite LIKE is case-insensitive). -/
def showdownWinner (src : Source) (k : Nat × Nat) : Option Nat :=
  ((showdownActionsOf src k).filter (fun a => strContains (actLower a) "wins")).head?.map
    (fun a => a.player_seat)

/-- One step of the VPIP/PFR flag loop of calculate_player_stats: skip verbs
containing "blind", otherwise accumulate the two any-match flags. -/
def vpipStep (st : Bool × Bool) (a : HandAction) : Bool × Bool :=
  if isBlindAct a then st else (st.1 || isVpipAct a, st.2 || isPfrAct a)

/-- The (has_vpip, has_pfr) flags of one hand, from the player's own preflop
actions of that hand. -/
def vpipPfrFlags (acts : List HandAction) : Bool × Bool :=
  acts.foldl vpipStep (false, false)

/-- calculator.py `_analyze_three_bet` scan: walk all preflop actions; break at
the player's first non-blind action returning whether a raise was seen before
it; every earlier action (including the player's blind posts) updates the
raise-seen flag. Returns false when the player never takes a non-blind action. -/
def threeBetScan (seat : Nat) : List HandAction → Bool → Bool
  | [], _ => false
  | a :: rest, rb =>
    if a.player_seat == seat && !isBlindAct a then rb
    else threeBetScan seat rest (rb || isRaiseAct a)

/-- calculator.py `_analyze_three_bet`: (opportunity, made). -/
def analyzeThreeBet (allPre : List HandAction) (seat : Nat)
    (playerActs : List HandAction) : Bool × Bool :=
  if threeBetScan seat allPre false then
    (true, playerActs.any (fun a => !isBlindAct a && isRaiseAct a))
  else (false, false)

/-- calculator.py `_analyze_cbet`: (opportunity, made); opportunity is just
"the flop round has actions", made is "the player has a raising flop action". -/
def analyzeCbet (flopActs : List HandAction) (seat : Nat) : Bool × Bool :=
  if flopActs.isEmpty then (false, false)
  else (true, flopActs.any (fun a => a.player_seat == seat && isRaiseAct a))

/-- calculator.py `_analyze_fold_to_3bet` walk with its two flags
(player_raised, three_bet_happened); returns (opportunity, folded).
The walk stops at the player's first non-raise fold after both flags hold. -/
def ft3bGo (seat : Nat) : List HandAction → Bool → Bool → Bool × Bool
  | [], _, tb => (tb, false)
  | a :: rest, pr, tb =>
    if a.player_seat == seat then
      if isRaiseAct a then ft3bGo seat rest true tb
      else if pr && tb && isFoldAct a then (tb, true)
      else ft3bGo seat rest pr tb
    else
      if pr && isRaiseAct a then ft3bGo seat rest pr true
      else ft3bGo seat rest pr tb

/-- calculator.py `_analyze_fold_to_3bet`: (opportunity, folded). -/
def analyzeFoldTo3Bet (allPre : List HandAction) (seat : Nat) : Bool × Bool :=
  ft3bGo seat allPre false false

/-- calculator.py `_analyze_fold_to_cbet`: the last preflop raiser other than
the player (the seat with initiative). -/
def lastOtherRaiser (allPre : List HandAction) (seat : Nat) : Option Nat :=
  allPre.foldl
    (fun acc a =>
      if a.player_seat != seat && isRaiseAct a then some a.player_seat else acc)
    none

/-- calculator.py `_analyze_fold_to_cbet` flop walk: track whether the preflop
raiser has bet; at the player's first action after that bet, record
(opportunity, whether that action folds) and stop. -/
def ftcbGo (raiser seat : Nat) : List HandAction → Bool → Bool × Bool
  | [], _ => (false, false)
  | a :: rest, cb =>
    if a.player_seat == raiser then
      ftcbGo raiser seat rest (cb || isRaiseAct a)
    else if a.player_seat == seat && cb then
      (true, isFoldAct a)
    else ftcbGo raiser seat rest cb

/-- calculator.py `_analyze_fold_to_cbet`: (opportunity, folded). -/
def analyzeFoldToCbet (src : Source) (k : Nat × Nat) (seat : Nat)
    (allPre : List HandAction) : Bool × Bool :=
  match lastOtherRaiser allPre seat with
  | none => (false, false)
  | some r => ftcbGo r seat (flopActionsOf src k) false

/-- The per-hand VPIP flag used by the accumulator. -/
def vpipFlagOf (src : Source) (name : String) (k : Nat × Nat) : Bool :=
  (vpipPfrFlags (playerPreflopOfHand src name k)).1

/-- The per-hand PFR flag used by the accumulator. -/
def pfrFlagOf (src : Source) (name : String) (k : Nat × Nat) : Bool :=
  (vpipPfrFlags (playerPreflopOfHand src name k)).2

/-- calculator.py `pfr_hands` set: the preflop hand keys with the PFR flag. -/
def pfrHandKeys (src : Source) (name : String) : List (Nat × Nat) :=
  (preflopHandKeys src name).filter (pfrFlagOf src name)

/-- The 3-bet contribution of one hand, with the call-site gates of
calculate_player_stats: seat known and the hand present in
`all_preflop_by_hand`. -/
def threeBetContrib (src : Source) (name : String) (k : Nat × Nat) : Bool × Bool :=
  match seatOf src name k.1 with
  | some s =>
    if (allPreflopOfHand src name k).isEmpty then (false, false)
    else analyzeThreeBet (allPreflopOfHand src name k) s (playerPreflopOfHand src name k)
  | none => (false, false)

/-- The c-bet contribution of one hand (call site gates on a known seat). -/
def cbetContrib (src : Source) (name : String) (k : Nat × Nat) : Bool × Bool :=
  match seatOf src name k.1 with
  | some s => analyzeCbet (flopActionsOf src k) s
  | none => (false, false)

/-- The fold-to-3-bet contribution of one hand (call site gates on a known
seat; the preflop list falls back to `[]` when the hand is absent). -/
def ft3bContrib (src : Source) (name : String) (k : Nat × Nat) : Bool × Bool :=
  match seatOf src name k.1 with
  | some s => analyzeFoldTo3Bet (allPreflopOfHand src name k) s
  | none => (false, false)

/-- Whether the player saw the flop in a hand: some flop action by their seat. -/
def sawFlopOf (src : Source) (name : String) (k : Nat × Nat) : Bool :=
  match seatOf src name k.1 with
  | some s => (flopActionsOf src k).any (fun a => a.player_seat == s)
  | none => false

/-- The fold-to-c-bet contribution of one hand. -/
def ftcbContrib (src : Source) (name : String) (k : Nat × Nat) : Bool × Bool :=
  match seatOf src name k.1 with
  | some s => analyzeFoldToCbet src k s (allPreflopOfHand src name k)
  | none => (false, false)

/-- Whether the player was still in at showdown: the hand has a showdown round
and the player's seat acts in it. -/
def atShowdownOf (src : Source) (name : String) (k : Nat × Nat) : Bool :=
  match seatOf src name k.1 with
  | some s => (showdownActionsOf src k).any (fun a => a.player_seat == s)
  | none => false

/-- Whether the player won the showdown of a hand. -/
def wonShowdownOf (src : Source) (name : String) (k : Nat × Nat) : Bool :=
  match seatOf src name k.1 with
  | some s => showdownWinner src k == some s
  | none => false

/-- calculator.py StatsCalculator.calculate_player_stats: the per-player
accumulator over one source. Mirrors the Python control flow: the early
return on zero hands; the VPIP/PFR/3-bet loop over the player's preflop
hands; the c-bet and fold-to-3-bet loop over the PFR hands; the
saw-flop/fold-to-c-bet/WTSD/W$SD loop over all hands played; and the
aggression loop over all the player's non-showdown actions. Each loop
increments a counter once per item satisfying its condition, so every
counter is the count of items satisfying the loop's predicate. -/
def calculatePlayerStats (src : Source) (name : String) : PlayerStats :=
  if (handsPlayed src name).length = 0 then { player_name := name }
  else
    { player_name := name,
      total_hands := ((handsPlayed src name).length : Int),
      vpip_hands := (((preflopHandKeys src name).countP (vpipFlagOf src name) : Nat) : Int),
      pfr_hands := (((preflopHandKeys src name).countP (pfrFlagOf src name) : Nat) : Int),
      total_bets :=
        (((playerAllActions src name).countP
          (fun a => !(a.betting_round == 4) && isAggAct a) : Nat) : Int),
      total_calls :=
        (((playerAllActions src name).countP
          (fun a => !(a.betting_round == 4) && isCallAct a) : Nat) : Int),
      three_bet_opportunities :=
        (((preflopHandKeys src name).countP
          (fun k => (threeBetContrib src name k).1) : Nat) : Int),
      three_bet_made :=
        (((preflopHandKeys src name).countP
          (fun k => (threeBetContrib src name k).1 && (threeBetContrib src name k).2) : Nat) : Int),
      cbet_opportunities :=
        (((pfrHandKeys src name).countP
          (fun k => (cbetContrib src name k).1) : Nat) : Int),
      cbet_made :=
        (((pfrHandKeys src name).countP
          (fun k => (cbetContrib src name k).1 && (cbetContrib src name k).2) : Nat) : Int),
      fold_to_3bet_opportunities :=
        (((pfrHandKeys src name).countP
          (fun k => (ft3bContrib src name k).1) : Nat) : Int),
      fold_to_3bet_made :=
        (((pfrHandKeys src name).countP
          (fun k => (ft3bContrib src name k).1 && (ft3bContrib src name k).2) : Nat) : Int),
      fold_to_cbet_opportunities :=
        (((handsPlayed src name).countP
          (fun k => sawFlopOf src name k && (ftcbContrib src name k).1) : Nat) : Int),
      fold_to_cbet_made :=
        (((handsPlayed src name).countP
          (fun k => sawFlopOf src name k && (ftcbContrib src name k).1
                    && (ftcbContrib src name k).2) : Nat) : Int),
      hands_saw_flop :=
        (((handsPlayed src name).countP (sawFlopOf src name) : Nat) : Int),
      hands_went_to_showdown :=
        (((handsPlayed src name).countP
          (fun k => sawFlopOf src name k && handHasShowdown src k
                    && atShowdownOf src name k) : Nat) : Int),
      showdowns_won :=
        (((handsPlayed src name).countP
          (fun k => sawFlopOf src name k && handHasShowdown src k
                    && atShowdownOf src name k && wonShowdownOf src name k) : Nat) : Int) }

/-- models.py PlayerStats.vpip. Python float formulas are modelled over ℚ;
the guards and case analysis are what the claims are about. -/
def PlayerStats.vpip (s : PlayerStats) : ℚ :=
  if s.total_hands = 0 then 0 else (s.vpip_hands : ℚ) / (s.total_hands : ℚ) * 100

/-- models.py PlayerStats.pfr. -/
def PlayerStats.pfr (s : PlayerStats) : ℚ :=
  if s.total_hands = 0 then 0 else (s.pfr_hands : ℚ) / (s.total_hands : ℚ) * 100

/-- models.py PlayerStats.af: the aggression ratio. Python returns
float('inf') when there are no calls but some bets; the sentinel is modelled
as ⊤ of WithTop ℚ, which is greater than every finite value. -/
def PlayerStats.af (s : PlayerStats) : WithTop ℚ :=
  if s.total_calls = 0 then (if 0 < s.total_bets then ⊤ else ((0 : ℚ) : WithTop ℚ))
  else (((s.total_bets : ℚ) / (s.total_calls : ℚ)) : WithTop ℚ)

/-- models.py PlayerStats.three_bet. -/
def PlayerStats.three_bet (s : PlayerStats) : ℚ :=
  if s.three_bet_opportunities = 0 then 0
  else (s.three_bet_made : ℚ) / (s.three_bet_opportunities : ℚ) * 100

/-- models.py PlayerStats.cbet. -/
def PlayerStats.cbet (s : PlayerStats) : ℚ :=
  if s.cbet_opportunities = 0 then 0
  else (s.cbet_made : ℚ) / (s.cbet_opportunities : ℚ) * 100

/-- models.py PlayerStats.fold_to_3bet. -/
def PlayerStats.fold_to_3bet (s : PlayerStats) : ℚ :=
  if s.fold_to_3bet_opportunities = 0 then 0
  else (s.fold_to_3bet_made : ℚ) / (s.fold_to_3bet_opportunities : ℚ) * 100

/-- models.py PlayerStats.fold_to_cbet. -/
def PlayerStats.fold_to_cbet (s : PlayerStats) : ℚ :=
  if s.fold_to_cbet_opportunities = 0 then 0
  else (s.fold_to_cbet_made : ℚ) / (s.fold_to_cbet_opportunities : ℚ) * 100

/-- models.py PlayerStats.wtsd. -/
def PlayerStats.wtsd (s : PlayerStats) : ℚ :=
  if s.hands_saw_flop = 0 then 0
  else (s.hands_went_to_showdown : ℚ) / (s.hands_saw_flop : ℚ) * 100

/-- models.py PlayerStats.wsd. -/
def PlayerStats.wsd (s : PlayerStats) : ℚ :=
  if s.hands_went_to_showdown = 0 then 0
  else (s.showdowns_won : ℚ) / (s.hands_went_to_showdown : ℚ) * 100

/-- Python round-half-to-even to an integer. -/
def roundHalfEven (q : ℚ) : ℤ :=
  if q - (⌊q⌋ : ℚ) < 1 / 2 then ⌊q⌋
  else if (1 : ℚ) / 2 < q - (⌊q⌋ : ℚ) then ⌊q⌋ + 1
  else if ⌊q⌋ % 2 = 0 then ⌊q⌋ else ⌊q⌋ + 1

/-- Python round(x, 1). -/
def pyRound1 (q : ℚ) : ℚ := ((roundHalfEven (10 * q) : ℤ) : ℚ) / 10

/-- models.py PlayerStats.to_dict, the "af" entry only:
`round(self.af, 1) if self.af != float('inf') else "inf"` — the infinite
sentinel is rendered as the string "inf", a non-numeric value, while finite
ratios are rounded numbers. -/
def PlayerStats.afDisplay (s : PlayerStats) : String ⊕ ℚ :=
  if s.af = ⊤ then Sum.inl "inf" else Sum.inr (pyRound1 (s.af.untop' 0))

/-- log_parser.py get_players keys: the distinct player names of the source. -/
def sourcePlayers (src : Source) : List String :=
  dedupFold (src.players.map (fun r => r.player))

/-- calculator.py calculate_all_players_stats: the per-player records of all
players of the source. -/
def calculateAllPlayersStats (src : Source) : List (String × PlayerStats) :=
  (sourcePlayers src).map (fun n => (n, calculatePlayerStats src n))

/-- stats_db.py merge_stats, the merged record when an entry already exists:
every counter added field-wise; the stored name is the new record's name. -/
def addStats (existing new : PlayerStats) : PlayerStats :=
  { player_name := new.player_name,
    total_hands := existing.total_hands + new.total_hands,
    vpip_hands := existing.vpip_hands + new.vpip_hands,
    pfr_hands := existing.pfr_hands + new.pfr_hands,
    total_bets := existing.total_bets + new.total_bets,
    total_calls := existing.total_calls + new.total_calls,
    three_bet_opportunities := existing.three_bet_opportunities + new.three_bet_opportunities,
    three_bet_made := existing.three_bet_made + new.three_bet_made,
    cbet_opportunities := existing.cbet_opportunities + new.cbet_opportunities,
    cbet_made := existing.cbet_made + new.cbet_made,
    fold_to_3bet_opportunities :=
      existing.fold_to_3bet_opportunities + new.fold_to_3bet_opportunities,
    fold_to_3bet_made := existing.fold_to_3bet_made + new.fold_to_3bet_made,
    fold_to_cbet_opportunities :=
      existing.fold_to_cbet_opportunities + new.fold_to_cbet_opportunities,
    fold_to_cbet_made := existing.fold_to_cbet_made + new.fold_to_cbet_made,
    hands_saw_flop := existing.hands_saw_flop + new.hands_saw_flop,
    hands_went_to_showdown := existing.hands_went_to_showdown + new.hands_went_to_showdown,
    showdowns_won := existing.showdowns_won + new.showdowns_won }

/-- stats_db.py merge_stats as a function of the looked-up existing entry:
add when present, take the new record as-is when absent. -/
def mergeStats (existing : Option PlayerStats) (new : PlayerStats) : PlayerStats :=
  match existing with
  | some e => addStats e new
  | none => new

/-- log_watcher.py save_pending_stats delta: field-wise difference of the
current file record minus the imported baseline record; the name is the
player's key. -/
def subStats (file imported : PlayerStats) : PlayerStats :=
  { player_name := file.player_name,
    total_hands := file.total_hands - imported.total_hands,
    vpip_hands := file.vpip_hands - imported.vpip_hands,
    pfr_hands := file.pfr_hands - imported.pfr_hands,
    total_bets := file.total_bets - imported.total_bets,
    total_calls := file.total_calls - imported.total_calls,
    three_bet_opportunities :=
      file.three_bet_opportunities - imported.three_bet_opportunities,
    three_bet_made := file.three_bet_made - imported.three_bet_made,
    cbet_opportunities := file.cbet_opportunities - imported.cbet_opportunities,
    cbet_made := file.cbet_made - imported.cbet_made,
    fold_to_3bet_opportunities :=
      file.fold_to_3bet_opportunities - imported.fold_to_3bet_opportunities,
    fold_to_3bet_made := file.fold_to_3bet_made - imported.fold_to_3bet_made,
    fold_to_cbet_opportunities :=
      file.fold_to_cbet_opportunities - imported.fold_to_cbet_opportunities,
    fold_to_cbet_made := file.fold_to_cbet_made - imported.fold_to_cbet_made,
    hands_saw_flop := file.hands_saw_flop - imported.hands_saw_flop,
    hands_went_to_showdown := file.hands_went_to_showdown - imported.hands_went_to_showdown,
    showdowns_won := file.showdowns_won - imported.showdowns_won }

/-- The all-zero record used when a lookup returns nothing. -/
def orZeroStats (n : String) (o : Option PlayerStats) : PlayerStats :=
  o.getD { player_name := n }

/-- stats_db.py get_player_stats: the row of the player_stats table with this
primary key (rows are unique per name). -/
def dbFind : List (String × PlayerStats) → String → Option PlayerStats
  | [], _ => none
  | p :: rest, n => if p.1 == n then some p.2 else dbFind rest n

/-- stats_db.py save_player_stats, an INSERT ... ON CONFLICT(player_name)
DO UPDATE: replace the row with this primary key, or append a new row. -/
def saveStats : List (String × PlayerStats) → PlayerStats → List (String × PlayerStats)
  | [], s => [(s.player_name, s)]
  | p :: rest, s =>
    if p.1 == s.player_name then (p.1, s) :: rest else p :: saveStats rest s

/-- stats_db.py merge_stats acting on the table: read the existing row, add
field-wise (or take the new record when absent), write back. -/
def mergeStatsDB (store : List (String × PlayerStats)) (s : PlayerStats) :
    List (String × PlayerStats) :=
  match dbFind store s.player_name with
  | some e => saveStats store (addStats e s)
  | none => saveStats store s

/-- One processed_logs row: position marker and the per-player baseline
snapshot persisted as stats_json. -/
structure BaselineEntry where
  lastActionId : Nat
  snapshot : List (String × PlayerStats)
deriving Repr, DecidableEq

/-- The persistent state of stats_db.py: the player_stats table and the
processed_logs table (the Baseline Ledger), keyed by log path. -/
structure DBState where
  stats : List (String × PlayerStats)
  processedLogs : List (String × BaselineEntry)
deriving Repr, DecidableEq

/-- stats_db.py set_last_processed_action, an INSERT ... ON CONFLICT(log_path)
DO UPDATE: replace the baseline row of this path, or append a new row. -/
def setBaseline : List (String × BaselineEntry) → String → BaselineEntry →
    List (String × BaselineEntry)
  | [], path, e => [(path, e)]
  | p :: rest, path, e =>
    if p.1 == path then (p.1, e) :: rest else p :: setBaseline rest path e

/-- stats_db.py get_imported_file_stats: the persisted baseline snapshot of a
path, none when the path was never recorded. -/
def getImportedFileStats (st : DBState) (path : String) :
    Option (List (String × PlayerStats)) :=
  ((st.processedLogs.find? (fun p => p.1 == path)).map (fun p => p.2.snapshot))

/-- stats_db.py clear_all_stats: DELETE FROM player_stats and
DELETE FROM processed_logs — both tables emptied together. -/
def clearAllStats (_st : DBState) : DBState := { stats := [], processedLogs := [] }

/-- Abstraction of log_parser.py get_last_processed_action_id (MAX(ActionID));
the actions being listed in id order, the count stands in for the highest id. -/
def lastActionIdOf (src : Source) : Nat := src.actions.length

/-- The per-source body of log_watcher.py import_all_logs: compute all player
records of the file, merge each into the store, then record the file's
baseline snapshot and position marker. -/
def importSource (st : DBState) (src : Source) : DBState :=
  { stats := (calculateAllPlayersStats src).foldl (fun acc p => mergeStatsDB acc p.2) st.stats,
    processedLogs :=
      setBaseline st.processedLogs src.path
        ⟨lastActionIdOf src, calculateAllPlayersStats src⟩ }

/-- log_watcher.py import_all_logs: clear both tables, then import every
source in order. -/
def importAllLogs (srcs : List Source) (st : DBState) : DBState :=
  srcs.foldl importSource (clearAllStats st)

/-- The per-player slice of the live tracking state of log_watcher.py: the
player's persisted row, the baseline entry of the active source
(`_imported_file_stats`), and the player's current file record
(`_current_file_stats`), none before the first processed poll. -/
structure LiveState where
  db : Option PlayerStats
  baseline : Option PlayerStats
  current : Option PlayerStats
deriving Repr, DecidableEq

/-- One poll of log_watcher.py `_process_updates` that observes new actions:
recompute the whole active source's record for the player; nothing is
written to the store or the baseline. -/
def pollStep (name : String) (st : LiveState) (snap : Source) : LiveState :=
  { st with current := some (calculatePlayerStats snap name) }

/-- The per-player body of log_watcher.py save_pending_stats: when a baseline
record exists, merge the field-wise delta of the current record minus the
baseline; otherwise merge the whole current record. -/
def savePendingPlayer (db imported : Option PlayerStats) (current : PlayerStats) :
    PlayerStats :=
  match imported with
  | some imp => mergeStats db (subStats current imp)
  | none => mergeStats db current

/-- log_watcher.py save_pending_stats for one player: a no-op when no poll has
produced a current record, else commit the delta into the store and overwrite
the baseline with the current record. -/
def commitStep (st : LiveState) : LiveState :=
  match st.current with
  | none => st
  | some c =>
    { db := some (savePendingPlayer st.db st.baseline c),
      baseline := some c,
      current := some c }

/-- log_watcher.py get_aggregated_table_stats, the body of the loop for one
table player: with both a persisted row and a current file record, present
persisted + current − baseline field-wise (0 baseline when the player has no
baseline entry); with only one of the two, present it unchanged. -/
def aggregatedViewPlayer (name : String) (db file imp : Option PlayerStats) :
    Option PlayerStats :=
  match db, file with
  | some d, some f =>
    some { player_name := name,
           total_hands := d.total_hands + f.total_hands -
             (match imp with | some i => i.total_hands | none => 0),
           vpip_hands := d.vpip_hands + f.vpip_hands -
             (match imp with | some i => i.vpip_hands | none => 0),
           pfr_hands := d.pfr_hands + f.pfr_hands -
             (match imp with | some i => i.pfr_hands | none => 0),
           total_bets := d.total_bets + f.total_bets -
             (match imp with | some i => i.total_bets | none => 0),
           total_calls := d.total_calls + f.total_calls -
             (match imp with | some i => i.total_calls | none => 0),
           three_bet_opportunities := d.three_bet_opportunities + f.three_bet_opportunities -
             (match imp with | some i => i.three_bet_opportunities | none => 0),
           three_bet_made := d.three_bet_made + f.three_bet_made -
             (match imp with | some i => i.three_bet_made | none => 0),
           cbet_opportunities := d.cbet_opportunities + f.cbet_opportunities -
             (match imp with | some i => i.cbet_opportunities | none => 0),
           cbet_made := d.cbet_made + f.cbet_made -
             (match imp with | some i => i.cbet_made | none => 0),
           fold_to_3bet_opportunities :=
             d.fold_to_3bet_opportunities + f.fold_to_3bet_opportunities -
             (match imp with | some i => i.fold_to_3bet_opportunities | none => 0),
           fold_to_3bet_made := d.fold_to_3bet_made + f.fold_to_3bet_made -
             (match imp with | some i => i.fold_to_3bet_made | none => 0),
           fold_to_cbet_opportunities :=
             d.fold_to_cbet_opportunities + f.fold_to_cbet_opportunities -
             (match imp with | some i => i.fold_to_cbet_opportunities | none => 0),
           fold_to_cbet_made := d.fold_to_cbet_made + f.fold_to_cbet_made -
             (match imp with | some i => i.fold_to_cbet_made | none => 0),
           hands_saw_flop := d.hands_saw_flop + f.hands_saw_flop -
             (match imp with | some i => i.hands_saw_flop | none => 0),
           hands_went_to_showdown := d.hands_went_to_showdown + f.hands_went_to_showdown -
             (match imp with | some i => i.hands_went_to_showdown | none => 0),
           showdowns_won := d.showdowns_won + f.showdowns_won -
             (match imp with | some i => i.showdowns_won | none => 0) }
  | some d, none => some d
  | none, some f => some f
  | none, none => none

/-- get_aggregated_table_stats threaded through the store state for one
player: the function reads the store and returns it untouched together with
the presented record — live polling computes a view only and performs no
store write. -/
def getAggregatedViewAndStore (store : List (String × PlayerStats)) (name : String)
    (file imp : Option PlayerStats) :
    Option PlayerStats × List (String × PlayerStats) :=
  (aggregatedViewPlayer name (dbFind store name) file imp, store)

/-! Helper lemmas about the set-accumulation fold and counting. -/

theorem mem_foldl_insertUnique [DecidableEq α] (l : List α) (acc : List α) (x : α) :
    x ∈ l.foldl insertUnique acc ↔ x ∈ acc ∨ x ∈ l := by
  induction l generalizing acc with
  | nil => simp
  | cons a t ih =>
    simp only [List.foldl_cons, ih, insertUnique]
    by_cases h : a ∈ acc
    · simp only [if_pos h, List.mem_cons]
      constructor
      · rintro (hx | hx)
        · exact Or.inl hx
        · exact Or.inr (Or.inr hx)
      · rintro (hx | rfl | hx)
        · exact Or.inl hx
        · exact Or.inl h
        · exact Or.inr hx
    · simp only [if_neg h, List.mem_append, List.mem_singleton, List.mem_cons]
      tauto

theorem mem_dedupFold [DecidableEq α] (l : List α) (x : α) :
    x ∈ dedupFold l ↔ x ∈ l := by
  simp [dedupFold, mem_foldl_insertUnique]

theorem nodup_insertUnique [DecidableEq α] (acc : List α) (a : α) (h : acc.Nodup) :
    (insertUnique acc a).Nodup := by
  unfold insertUnique
  by_cases hm : a ∈ acc
  · simpa [hm] using h
  · simp only [if_neg hm, List.nodup_append, List.nodup_cons]
    exact ⟨h, by simp, by simpa [List.disjoint_singleton] using hm⟩

theorem nodup_foldl_insertUnique [DecidableEq α] (l acc : List α) (h : acc.Nodup) :
    (l.foldl insertUnique acc).Nodup := by
  induction l generalizing acc with
  | nil => simpa using h
  | cons a t ih => exact ih _ (nodup_insertUnique _ _ h)

theorem nodup_dedupFold [DecidableEq α] (l : List α) : (dedupFold l).Nodup :=
  nodup_foldl_insertUnique l [] List.nodup_nil

theorem eq_nil_of_dedupFold_eq_nil [DecidableEq α] {l : List α}
    (h : dedupFold l = []) : l = [] := by
  cases l with
  | nil => rfl
  | cons a t =>
    exfalso
    have ha : a ∈ dedupFold (a :: t) := (mem_dedupFold _ _).2 (List.mem_cons_self a t)
    rw [h] at ha
    exact (List.not_mem_nil a) ha

theorem playerPreflop_mem_all {src : Source} {name : String} {a : HandAction}
    (h : a ∈ playerPreflopActions src name) : a ∈ playerAllActions src name := by
  rcases List.mem_filter.1 h with ⟨hmem, hcond⟩
  simp only [Bool.and_eq_true] at hcond
  exact List.mem_filter.2 ⟨hmem, hcond.2⟩

theorem playerAllActions_eq_nil_of_handsPlayed {src : Source} {name : String}
    (h : handsPlayed src name = []) : playerAllActions src name = [] := by
  have hm : (playerAllActions src name).map keyOfAct = [] :=
    eq_nil_of_dedupFold_eq_nil h
  exact List.map_eq_nil_iff.mp hm

theorem preflopHandKeys_eq_nil_of_handsPlayed {src : Source} {name : String}
    (h : handsPlayed src name = []) : preflopHandKeys src name = [] := by
  have hall := playerAllActions_eq_nil_of_handsPlayed h
  have hpre : playerPreflopActions src name = [] := by
    rcases hv : playerPreflopActions src name with _ | ⟨a, t⟩
    · rfl
    · exfalso
      have ha : a ∈ playerPreflopActions src name := by rw [hv]; exact List.mem_cons_self a t
      have := playerPreflop_mem_all ha
      rw [hall] at this
      exact (List.not_mem_nil a) this
  simp [preflopHandKeys, hpre, dedupFold]

/-- C5: for every player and every source, in every record the Accumulator
produces, each of the four "made" counters (3-bet, c-bet, fold-to-3-bet,
fold-to-c-bet) is at most its paired "opportunity" counter: each loop of
calculate_player_stats increments the made counter only inside the branch
that increments the opportunity counter. -/
theorem made_le_opportunity_invariant (src : Source) (name : String) :
    (calculatePlayerStats src name).three_bet_made
        ≤ (calculatePlayerStats src name).three_bet_opportunities
    ∧ (calculatePlayerStats src name).cbet_made
        ≤ (calculatePlayerStats src name).cbet_opportunities
    ∧ (calculatePlayerStats src name).fold_to_3bet_made
        ≤ (calculatePlayerStats src name).fold_to_3bet_opportunities
    ∧ (calculatePlayerStats src name).fold_to_cbet_made
        ≤ (calculatePlayerStats src name).fold_to_cbet_opportunities := by
  unfold calculatePlayerStats
  split
  · dsimp only
    exact ⟨le_refl 0, le_refl 0, le_refl 0, le_refl 0⟩
  · dsimp only
    refine ⟨?_, ?_, ?_, ?_⟩
    · exact_mod_cast List.countP_mono_left
        (fun k _ h => by simp only [Bool.and_eq_true] at h; exact h.1)
    · exact_mod_cast List.countP_mono_left
        (fun k _ h => by simp only [Bool.and_eq_true] at h; exact h.1)
    · exact_mod_cast List.countP_mono_left
        (fun k _ h => by simp only [Bool.and_eq_true] at h; exact h.1)
    · exact_mod_cast List.countP_mono_left
        (fun k _ h => by
          simp only [Bool.and_eq_true] at h ⊢
          exact h.1)

theorem foldl_vpipStep (l : List HandAction) (b1 b2 : Bool) :
    l.foldl vpipStep (b1, b2)
      = (b1 || l.any (fun a => !isBlindAct a && isVpipAct a),
         b2 || l.any (fun a => !isBlindAct a && isPfrAct a)) := by
  induction l generalizing b1 b2 with
  | nil => simp
  | cons a t ih =>
    simp only [List.foldl_cons, List.any_cons, vpipStep]
    cases h : isBlindAct a <;> simp [h, ih, Bool.or_assoc]

/-- C6: per hand, the classifier marks VPIP exactly when some of the player's
own preflop actions with a non-"blind" verb matches one of the (lower-cased,
substring-matched) VPIP verbs, PFR likewise with the PFR verbs, and
calculate_player_stats counts vpip_hands / pfr_hands as exactly the number of
preflop hands whose action list satisfies the respective condition. -/
theorem vpip_pfr_classification (src : Source) (name : String) :
    (∀ acts : List HandAction,
        ((vpipPfrFlags acts).1 = true ↔
          ∃ a ∈ acts, isBlindAct a = false ∧ isVpipAct a = true)
      ∧ ((vpipPfrFlags acts).2 = true ↔
          ∃ a ∈ acts, isBlindAct a = false ∧ isPfrAct a = true))
    ∧ (calculatePlayerStats src name).vpip_hands
        = (((preflopHandKeys src name).countP
            (fun k => (playerPreflopOfHand src name k).any
              (fun a => !isBlindAct a && isVpipAct a)) : Nat) : Int)
    ∧ (calculatePlayerStats src name).pfr_hands
        = (((preflopHandKeys src name).countP
            (fun k => (playerPreflopOfHand src name k).any
              (fun a => !isBlindAct a && isPfrAct a)) : Nat) : Int) := by
  refine ⟨?_, ?_, ?_⟩
  · intro acts
    constructor
    · simp [vpipPfrFlags, foldl_vpipStep, List.any_eq_true, Bool.and_eq_true,
        Bool.not_eq_true']
    · simp [vpipPfrFlags, foldl_vpipStep, List.any_eq_true, Bool.and_eq_true,
        Bool.not_eq_true']
  · unfold calculatePlayerStats
    split
    · rename_i hz
      have hnil : handsPlayed src name = [] := List.length_eq_zero.mp hz
      rw [preflopHandKeys_eq_nil_of_handsPlayed hnil]
      simp
    · dsimp only
      norm_cast
      exact List.countP_congr (fun k _ => by
        simp [vpipFlagOf, vpipPfrFlags, foldl_vpipStep])
  · unfold calculatePlayerStats
    split
    · rename_i hz
      have hnil : handsPlayed src name = [] := List.length_eq_zero.mp hz
      rw [preflopHandKeys_eq_nil_of_handsPlayed hnil]
      simp
    · dsimp only
      norm_cast
      exact List.countP_congr (fun k _ => by
        simp [pfrFlagOf, vpipPfrFlags, foldl_vpipStep])

theorem seat_known_of_pfrFlag {src : Source} {name : String} {k : Nat × Nat}
    (h : pfrFlagOf src name k = true) : ∃ s, seatOf src name k.1 = some s := by
  rw [pfrFlagOf, vpipPfrFlags, foldl_vpipStep] at h
  simp only [Bool.false_or, List.any_eq_true, Bool.and_eq_true] at h
  obtain ⟨a, ha, -⟩ := h
  rcases List.mem_filter.1 ha with ⟨hpre, hkey⟩
  rcases List.mem_filter.1 hpre with ⟨-, hcond⟩
  simp only [Bool.and_eq_true, beq_iff_eq] at hkey hcond
  exact ⟨a.player_seat, by rw [← hkey.1]; exact hcond.2⟩

/-- C8: calculate_player_stats counts a c-bet opportunity exactly once for
each hand where the player achieved PFR and the flop round has at least one
action, and a c-bet made exactly for those of these hands where the player in
addition has a raising flop action; hands without PFR or without flop action
contribute to neither counter. -/
theorem cbet_classification (src : Source) (name : String) :
    (calculatePlayerStats src name).cbet_opportunities
      = (((preflopHandKeys src name).countP
          (fun k => pfrFlagOf src name k && !(flopActionsOf src k).isEmpty) : Nat) : Int)
    ∧ (calculatePlayerStats src name).cbet_made
      = (((preflopHandKeys src name).countP
          (fun k => pfrFlagOf src name k && !(flopActionsOf src k).isEmpty
            && (flopActionsOf src k).any
                (fun a => seatOf src name k.1 == some a.player_seat && isRaiseAct a)) : Nat) : Int)
    := by
  constructor
  · unfold calculatePlayerStats
    split
    · rename_i hz
      rw [preflopHandKeys_eq_nil_of_handsPlayed (List.length_eq_zero.mp hz)]
      simp
    · dsimp only
      norm_cast
      rw [pfrHandKeys, List.countP_filter]
      refine List.countP_congr (fun k _ => ?_)
      by_cases hp : pfrFlagOf src name k = true
      · obtain ⟨s, hs⟩ := seat_known_of_pfrFlag hp
        by_cases he : (flopActionsOf src k).isEmpty = true
        · simp [cbetContrib, hs, analyzeCbet, he, hp]
        · simp [cbetContrib, hs, analyzeCbet, he, hp]
      · have hp2 : pfrFlagOf src name k = false := by
          cases hpv : pfrFlagOf src name k
          · rfl
          · exact absurd hpv hp
        simp [hp2]
  · unfold calculatePlayerStats
    split
    · rename_i hz
      rw [preflopHandKeys_eq_nil_of_handsPlayed (List.length_eq_zero.mp hz)]
      simp
    · dsimp only
      norm_cast
      rw [pfrHandKeys, List.countP_filter]
      refine List.countP_congr (fun k _ => ?_)
      by_cases hp : pfrFlagOf src name k = true
      · obtain ⟨s, hs⟩ := seat_known_of_pfrFlag hp
        by_cases he : (flopActionsOf src k).isEmpty = true
        · simp [cbetContrib, hs, analyzeCbet, he, hp]
        · have he2 : (flopActionsOf src k).isEmpty = false := by
            cases hev : (flopActionsOf src k).isEmpty
            · rfl
            · exact absurd hev he
          rw [Bool.eq_iff_iff]
          simp [cbetContrib, hs, analyzeCbet, he2, List.any_eq_true, Bool.and_eq_true,
            beq_iff_eq, hp]
          constructor
          · rintro ⟨a, ha, h1, h2⟩
            exact ⟨a, ha, h1.symm, h2⟩
          · rintro ⟨a, ha, h1, h2⟩
            exact ⟨a, ha, h1.symm, h2⟩
      · have hp2 : pfrFlagOf src name k = false := by
          cases hpv : pfrFlagOf src name k
          · rfl
          · exact absurd hpv hp
        simp [hp2]

/-- The spec-side "3-bet point" finder, following the claim's words: walk the
preflop actions tracking whether the player has raised; return the suffix
after the first action in which, the player having raised, a different seat
also raises; none when no such point exists. -/
def threeBetFacedSuffix (seat : Nat) : List HandAction → Bool → Option (List HandAction)
  | [], _ => none
  | a :: rest, pr =>
    if a.player_seat == seat then threeBetFacedSuffix seat rest (pr || isRaiseAct a)
    else if pr && isRaiseAct a then some rest
    else threeBetFacedSuffix seat rest pr

/-- The claim's reading of "made": after the 3-bet point, the player's next
own action is a fold. -/
def claimedFoldTo3BetMade (acts : List HandAction) (seat : Nat) : Bool :=
  match threeBetFacedSuffix seat acts false with
  | some rest =>
    match rest.filter (fun a => a.player_seat == seat) with
    | [] => false
    | b :: _ => isFoldAct b
  | none => false

theorem ft3bGo_after_point (seat : Nat) (acts : List HandAction) :
    ft3bGo seat acts true true
      = (true, acts.any
          (fun a => a.player_seat == seat && !isRaiseAct a && isFoldAct a)) := by
  induction acts with
  | nil => simp [ft3bGo]
  | cons a rest ih =>
    by_cases hseat : (a.player_seat == seat) = true
    · by_cases hraise : isRaiseAct a = true
      · simp [ft3bGo, hseat, hraise, ih]
      · by_cases hfold : isFoldAct a = true
        · simp [ft3bGo, hseat, hraise, hfold]
        · simp [ft3bGo, hseat, hraise, hfold, ih]
    · by_cases hraise : isRaiseAct a = true
      · simp [ft3bGo, hseat, hraise, ih]
      · simp [ft3bGo, hseat, hraise, ih]

theorem ft3bGo_eq_suffix_form (seat : Nat) (acts : List HandAction) (pr : Bool) :
    ft3bGo seat acts pr false
      = (match threeBetFacedSuffix seat acts pr with
         | some rest =>
           (true, rest.any
             (fun a => a.player_seat == seat && !isRaiseAct a && isFoldAct a))
         | none => (false, false)) := by
  induction acts generalizing pr with
  | nil => simp [ft3bGo, threeBetFacedSuffix]
  | cons a rest ih =>
    by_cases hseat : (a.player_seat == seat) = true
    · by_cases hraise : isRaiseAct a = true
      · simpa [ft3bGo, threeBetFacedSuffix, hseat, hraise] using ih true
      · simpa [ft3bGo, threeBetFacedSuffix, hseat, hraise] using ih pr
    · by_cases hpr : (pr && isRaiseAct a) = true
      · have hpr1 : pr = true := (Bool.and_eq_true _ _ ▸ hpr).1
        have hra : isRaiseAct a = true := (Bool.and_eq_true _ _ ▸ hpr).2
        simp [ft3bGo, threeBetFacedSuffix, hseat, hpr, hpr1, hra, ft3bGo_after_point]
      · simpa [ft3bGo, threeBetFacedSuffix, hseat, hpr] using ih pr

/-- C7 (amended): opportunity holds exactly when a 3-bet point exists — the
first time after a raise by the player that a different seat also raises —
and made holds exactly when the player has SOME later fold (their first
non-raise fold ends the walk), even if other player actions intervene between
the 3-bet and the fold; the claim's "next action is a fold" is what fails. -/
theorem foldTo3Bet_walk_characterization (acts : List HandAction) (seat : Nat) :
    ((analyzeFoldTo3Bet acts seat).1 = true
        ↔ (threeBetFacedSuffix seat acts false).isSome = true)
    ∧ ((analyzeFoldTo3Bet acts seat).2 = true
        ↔ ∃ rest, threeBetFacedSuffix seat acts false = some rest
            ∧ ∃ b ∈ rest, b.player_seat = seat
                ∧ isRaiseAct b = false ∧ isFoldAct b = true) := by
  have h := ft3bGo_eq_suffix_form seat acts false
  rw [analyzeFoldTo3Bet, h]
  cases hsfx : threeBetFacedSuffix seat acts false with
  | none => simp
  | some rest =>
    simp only [Option.isSome_some, Option.some.injEq]
    constructor
    · simp
    · constructor
      · intro hany
        refine ⟨rest, rfl, ?_⟩
        simp only [List.any_eq_true, Bool.and_eq_true, beq_iff_eq,
          Bool.not_eq_true'] at hany
        obtain ⟨b, hb, ⟨hb1, hb2⟩, hb3⟩ := hany
        exact ⟨b, hb, hb1, hb2, hb3⟩
      · rintro ⟨rest2, hr2, b, hb, hb1, hb2, hb3⟩
        cases hr2
        simp only [List.any_eq_true, Bool.and_eq_true, beq_iff_eq,
          Bool.not_eq_true']
        exact ⟨b, hb, ⟨hb1, hb2⟩, hb3⟩

/-- One preflop action list refuting C7 as stated: seat 1 (the player) raises,
seat 2 3-bets, seat 1 calls, seat 2 raises again, seat 1 folds. -/
def ft3bCounterActs : List HandAction :=
  [⟨7, 1, 0, 1, "bets", none⟩, ⟨7, 1, 0, 2, "bets", none⟩,
   ⟨7, 1, 0, 1, "calls", none⟩, ⟨7, 1, 0, 2, "bets", none⟩,
   ⟨7, 1, 0, 1, "folds", none⟩]

/-- C7 counterexample: in this PFR hand the player's NEXT action after the
3-bet point is "calls", not a fold, yet `_analyze_fold_to_3bet` reports
folded = True (the walk keeps scanning for a later fold); so "made is true
exactly when the player's next action after that point is a fold" is false. -/
theorem foldTo3Bet_next_action_counterexample :
    (vpipPfrFlags (ft3bCounterActs.filter (fun a => a.player_seat == 1))).2 = true
    ∧ (analyzeFoldTo3Bet ft3bCounterActs 1).1 = true
    ∧ (analyzeFoldTo3Bet ft3bCounterActs 1).2 = true
    ∧ claimedFoldTo3BetMade ft3bCounterActs 1 = false := by
  decide

/-- C9: the aggression ratio is bets/calls when the passive count is nonzero;
with zero calls it is the infinite sentinel when the aggressive count is
positive (strictly above every finite ratio, never rendered as a finite
number — to_dict yields the non-numeric "inf") and 0 otherwise. -/
theorem aggression_ratio_sentinel (s : PlayerStats) :
    (0 < s.total_calls →
        s.af = (((s.total_bets : ℚ) / (s.total_calls : ℚ)) : WithTop ℚ))
    ∧ (s.total_calls = 0 → 0 < s.total_bets →
        s.af = ⊤ ∧ (∀ q : ℚ, (q : WithTop ℚ) < s.af)
        ∧ (∀ q : ℚ, s.af ≠ ((q : ℚ) : WithTop ℚ))
        ∧ s.afDisplay = Sum.inl "inf")
    ∧ (s.total_calls = 0 → s.total_bets ≤ 0 → s.af = ((0 : ℚ) : WithTop ℚ)) := by
  refine ⟨?_, ?_, ?_⟩
  · intro h
    rw [PlayerStats.af, if_neg (by omega)]
  · intro h0 hb
    have haf : s.af = ⊤ := by rw [PlayerStats.af, if_pos h0, if_pos hb]
    refine ⟨haf, ?_, ?_, ?_⟩
    · intro q
      rw [haf]
      exact WithTop.coe_lt_top q
    · intro q
      rw [haf]
      exact Ne.symm (WithTop.coe_ne_top)
    · rw [PlayerStats.afDisplay, if_pos haf]
  · intro h0 hb
    rw [PlayerStats.af, if_pos h0, if_neg (by omega)]

/-- A record with two bets and no calls, exercising the sentinel case. -/
def afWitnessStats : PlayerStats := { player_name := "p", total_bets := 2 }

/-- Witness for C9 at a concrete record: zero calls and positive bets yield
the infinite sentinel, above the finite ratio 5 and displayed as "inf". -/
theorem aggression_ratio_sentinel_check :
    afWitnessStats.total_calls = 0 ∧ (0 : ℤ) < afWitnessStats.total_bets
    ∧ afWitnessStats.af = ⊤
    ∧ (((5 : ℚ) : WithTop ℚ) < afWitnessStats.af)
    ∧ afWitnessStats.af ≠ (((5 : ℚ) : ℚ) : WithTop ℚ)
    ∧ afWitnessStats.afDisplay = Sum.inl "inf" := by
  have h := (aggression_ratio_sentinel afWitnessStats).2.1 rfl (by decide)
  exact ⟨rfl, by decide, h.1, h.2.1 5, h.2.2.1 5, h.2.2.2⟩

/-- C10: a player with zero hands in a source gets the all-default record:
every one of the sixteen counters is zero, and every derived percentage and
the aggression ratio of that record evaluates to 0. -/
theorem zero_hands_all_zero (src : Source) (name : String)
    (h : handsPlayed src name = []) :
    calculatePlayerStats src name = { player_name := name }
    ∧ counterVec (calculatePlayerStats src name) = List.replicate 16 0
    ∧ (calculatePlayerStats src name).vpip = 0
    ∧ (calculatePlayerStats src name).pfr = 0
    ∧ (calculatePlayerStats src name).three_bet = 0
    ∧ (calculatePlayerStats src name).cbet = 0
    ∧ (calculatePlayerStats src name).fold_to_3bet = 0
    ∧ (calculatePlayerStats src name).fold_to_cbet = 0
    ∧ (calculatePlayerStats src name).wtsd = 0
    ∧ (calculatePlayerStats src name).wsd = 0
    ∧ (calculatePlayerStats src name).af = ((0 : ℚ) : WithTop ℚ) := by
  have hcalc : calculatePlayerStats src name = { player_name := name } := by
    unfold calculatePlayerStats
    rw [if_pos (by rw [h]; rfl)]
  rw [hcalc]
  refine ⟨rfl, rfl, ?_, ?_, ?_, ?_, ?_, ?_, ?_, ?_, ?_⟩
  · simp [PlayerStats.vpip]
  · simp [PlayerStats.pfr]
  · simp [PlayerStats.three_bet]
  · simp [PlayerStats.cbet]
  · simp [PlayerStats.fold_to_3bet]
  · simp [PlayerStats.fold_to_cbet]
  · simp [PlayerStats.wtsd]
  · simp [PlayerStats.wsd]
  · simp [PlayerStats.af]

/-- A source in which player "p" sits in game 1 at seat 2 but only seat 3
ever acts, so "p" has zero hands. -/
def zeroHandsWitnessSrc : Source :=
  { path := "log0",
    players := [⟨"p", 1, 2⟩],
    actions := [⟨1, 1, 0, 3, "bets", none⟩] }

/-- Witness for C10 at a concrete source: the spectator player gets the
all-zero record with all derived metrics 0. -/
theorem zero_hands_all_zero_check :
    handsPlayed zeroHandsWitnessSrc "p" = []
    ∧ calculatePlayerStats zeroHandsWitnessSrc "p" = { player_name := "p" }
    ∧ counterVec (calculatePlayerStats zeroHandsWitnessSrc "p") = List.replicate 16 0
    ∧ (calculatePlayerStats zeroHandsWitnessSrc "p").vpip = 0
    ∧ (calculatePlayerStats zeroHandsWitnessSrc "p").af = ((0 : ℚ) : WithTop ℚ) := by
  have h0 : handsPlayed zeroHandsWitnessSrc "p" = [] := by decide
  have h := zero_hands_all_zero zeroHandsWitnessSrc "p" h0
  exact ⟨h0, h.1, h.2.1, h.2.2.1, h.2.2.2.2.2.2.2.2.2.2⟩

/-- A stored aggregate of 5 hands for player "p". -/
def truncDb : PlayerStats := { player_name := "p", total_hands := 5 }

/-- The baseline recorded when the source had 3 hands. -/
def truncBaseline : PlayerStats := { player_name := "p", total_hands := 3 }

/-- The current accumulation after the source was truncated to 1 hand. -/
def truncCurrent : PlayerStats := { player_name := "p", total_hands := 1 }

/-- C3 counterexample: with a baseline of 3 hands and a truncated current
accumulation of 1 hand, save_pending_stats merges the negative delta −2 as
is: the stored total_hands drops from 5 to 3. The clamp to zero the claim
describes does not exist, and a store counter decreases on a live commit. -/
theorem clamp_to_zero_counterexample :
    (savePendingPlayer (some truncDb) (some truncBaseline) truncCurrent).total_hands = 3
    ∧ truncDb.total_hands = 5
    ∧ (savePendingPlayer (some truncDb) (some truncBaseline) truncCurrent).total_hands
        < truncDb.total_hands := by
  decide

/-- C3 (amended): save_pending_stats merges the raw field-wise delta of the
current accumulation minus the stored baseline, with no clamping of negative
components (and merges the whole current record when no baseline exists); a
negative delta therefore decreases the corresponding store counter. -/
theorem live_commit_merges_raw_delta (db imp cur : PlayerStats) :
    counterVec (savePendingPlayer (some db) (some imp) cur)
      = List.zipWith (· + ·) (counterVec db)
          (List.zipWith (· - ·) (counterVec cur) (counterVec imp))
    ∧ savePendingPlayer (some db) none cur = addStats db cur := by
  exact ⟨rfl, rfl⟩

/-- C4: running the full batch import twice in a row over the same unchanged
sources yields identical per-player Aggregate Store contents (indeed the
identical whole persisted state): import_all_logs begins with clear_all_stats
which empties both tables, so each run recomputes the same state from
scratch. -/
theorem batch_import_idempotent (srcs : List Source) (st : DBState) :
    (importAllLogs srcs (importAllLogs srcs st)).stats = (importAllLogs srcs st).stats
    ∧ importAllLogs srcs (importAllLogs srcs st) = importAllLogs srcs st := by
  exact ⟨rfl, rfl⟩

/-- C2: for a table player with a current file record, the live aggregated
view equals, field-wise on all sixteen counters, persisted total (zero when
the player has no row) plus the current accumulation minus the baseline
(zero when the source has no baseline entry for the player); and computing
the view leaves the store untouched. A persisted baseline entry only ever
exists for players whose merged rows are in the store, which the second
hypothesis records. -/
theorem aggregated_view_formula (store : List (String × PlayerStats)) (name : String)
    (file imp : Option PlayerStats) (f : PlayerStats)
    (hf : file = some f)
    (himp : imp.isSome = true → (dbFind store name).isSome = true) :
    (∃ v, (getAggregatedViewAndStore store name file imp).1 = some v
        ∧ counterVec v
            = List.zipWith (· + ·) (counterVec (orZeroStats name (dbFind store name)))
                (List.zipWith (· - ·) (counterVec f)
                  (counterVec (orZeroStats name imp))))
    ∧ (getAggregatedViewAndStore store name file imp).2 = store := by
  subst hf
  refine ⟨?_, rfl⟩
  simp only [getAggregatedViewAndStore]
  cases hdb : dbFind store name with
  | some d =>
    cases imp with
    | some i =>
      refine ⟨_, rfl, ?_⟩
      simp only [aggregatedViewPlayer, counterVec, orZeroStats, Option.getD_some,
        List.zipWith, List.cons.injEq, and_true]
      omega
    | none =>
      refine ⟨_, rfl, ?_⟩
      simp only [aggregatedViewPlayer, counterVec, orZeroStats, Option.getD_some,
        Option.getD_none, List.zipWith, List.cons.injEq, and_true]
      omega
  | none =>
    have himp2 : imp = none := by
      cases imp with
      | none => rfl
      | some i =>
        have := himp rfl
        rw [hdb] at this
        simp at this
    subst himp2
    refine ⟨_, rfl, ?_⟩
    simp only [aggregatedViewPlayer, counterVec, orZeroStats, Option.getD_none,
      List.zipWith, List.cons.injEq, and_true]
    omega

/-- The stored row used by the C2 witness. -/
def viewWitnessDb : PlayerStats := { player_name := "p", total_hands := 4, vpip_hands := 2 }

/-- The store holding that single row. -/
def viewWitnessStore : List (String × PlayerStats) := [("p", viewWitnessDb)]

/-- The current file record of the C2 witness. -/
def viewWitnessFile : PlayerStats := { player_name := "p", total_hands := 3, vpip_hands := 1 }

/-- The baseline record of the C2 witness. -/
def viewWitnessImp : PlayerStats := { player_name := "p", total_hands := 2, vpip_hands := 1 }

/-- Witness for C2 at one concrete table player: the presented record is
store + file − baseline, field-wise, and the store is returned unchanged. -/
theorem aggregated_view_formula_check :
    (∃ v, (getAggregatedViewAndStore viewWitnessStore "p"
            (some viewWitnessFile) (some viewWitnessImp)).1 = some v
        ∧ counterVec v
            = List.zipWith (· + ·)
                (counterVec (orZeroStats "p" (dbFind viewWitnessStore "p")))
                (List.zipWith (· - ·) (counterVec viewWitnessFile)
                  (counterVec (orZeroStats "p" (some viewWitnessImp)))))
    ∧ (getAggregatedViewAndStore viewWitnessStore "p"
        (some viewWitnessFile) (some viewWitnessImp)).2 = viewWitnessStore :=
  aggregated_view_formula viewWitnessStore "p"
    (some viewWitnessFile) (some viewWitnessImp) viewWitnessFile rfl (by decide)

theorem calculatePlayerStats_name (src : Source) (name : String) :
    (calculatePlayerStats src name).player_name = name := by
  unfold calculatePlayerStats
  split <;> rfl

theorem dbFind_saveStats (store : List (String × PlayerStats)) (s : PlayerStats)
    (n : String) :
    dbFind (saveStats store s) n
      = if s.player_name == n then some s else dbFind store n := by
  induction store with
  | nil =>
    by_cases h : (s.player_name == n) = true <;> simp [saveStats, dbFind, h]
  | cons p rest ih =>
    by_cases h1 : (p.1 == s.player_name) = true
    · have h1e : p.1 = s.player_name := by simpa [beq_iff_eq] using h1
      by_cases h2 : (s.player_name == n) = true
      · have h2e : s.player_name = n := by simpa [beq_iff_eq] using h2
        simp [saveStats, dbFind, h1, h1e, h2e]
      · have h2e : ¬ s.player_name = n := by simpa [beq_iff_eq] using h2
        simp [saveStats, dbFind, h1, h1e, h2e]
    · have h1e : ¬ p.1 = s.player_name := by simpa [beq_iff_eq] using h1
      by_cases h3 : (p.1 == n) = true
      · have h3e : p.1 = n := by simpa [beq_iff_eq] using h3
        have h2e : ¬ s.player_name = n := fun hc => h1e (h3e.trans hc.symm)
        simp [saveStats, dbFind, h1, h3, h2e]
      · simp [saveStats, dbFind, h1, h3, ih]

theorem dbFind_mergeStatsDB (store : List (String × PlayerStats)) (s : PlayerStats)
    (n : String) :
    dbFind (mergeStatsDB store s) n
      = if s.player_name == n then some (mergeStats (dbFind store n) s)
        else dbFind store n := by
  unfold mergeStatsDB
  cases hdb : dbFind store s.player_name with
  | some e =>
    rw [dbFind_saveStats]
    by_cases h2 : (s.player_name == n) = true
    · have h2e : s.player_name = n := by simpa [beq_iff_eq] using h2
      rw [← h2e, hdb]
      simp [addStats, h2, mergeStats]
    · simp [h2, addStats]
  | none =>
    rw [dbFind_saveStats]
    by_cases h2 : (s.player_name == n) = true
    · have h2e : s.player_name = n := by simpa [beq_iff_eq] using h2
      rw [← h2e, hdb]
      simp [h2, mergeStats]
    · simp [h2]

theorem dbFind_foldl_merge_of_not_mem (g : String → PlayerStats)
    (hg : ∀ m, (g m).player_name = m) (names : List String) (n : String)
    (hn : n ∉ names) :
    ∀ store : List (String × PlayerStats),
      dbFind (names.foldl (fun acc m => mergeStatsDB acc (g m)) store) n
        = dbFind store n := by
  induction names with
  | nil => intro store; rfl
  | cons m t ih =>
    intro store
    have hmn : ¬ m = n := fun hc => hn (hc ▸ List.mem_cons_self m t)
    have hnt : n ∉ t := fun hc => hn (List.mem_cons_of_mem m hc)
    rw [List.foldl_cons, ih hnt, dbFind_mergeStatsDB, hg m, if_neg]
    simpa [beq_iff_eq] using hmn

theorem dbFind_foldl_mergeList (g : String → PlayerStats)
    (hg : ∀ m, (g m).player_name = m) (names : List String) (n : String)
    (hnd : names.Nodup) (hmem : n ∈ names) :
    ∀ store : List (String × PlayerStats), dbFind store n = none →
      dbFind (names.foldl (fun acc m => mergeStatsDB acc (g m)) store) n
        = some (g n) := by
  induction names with
  | nil => exact absurd hmem (List.not_mem_nil n)
  | cons m t ih =>
    intro store hnone
    rcases List.nodup_cons.1 hnd with ⟨hmt, hndt⟩
    rw [List.foldl_cons]
    rcases List.mem_cons.1 hmem with rfl | hnt
    · rw [dbFind_foldl_merge_of_not_mem g hg t n hmt]
      rw [dbFind_mergeStatsDB, hg n, if_pos (by simp), hnone]
      rfl
    · rw [ih hndt hnt]
      rw [dbFind_mergeStatsDB, hg m, if_neg, hnone]
      have : ¬ m = n := fun hc => hmt (hc ▸ hnt)
      simpa [beq_iff_eq] using this

theorem foldl_pollStep (name : String) (init : LiveState) (snaps : List Source)
    (f : Source) (h : snaps.getLast? = some f) :
    snaps.foldl (pollStep name) init
      = { db := init.db, baseline := init.baseline,
          current := some (calculatePlayerStats f name) } := by
  induction snaps generalizing init with
  | nil => simp at h
  | cons a t ih =>
    cases t with
    | nil =>
      have ha : a = f := by simpa using h
      subst ha
      rfl
    | cons b t2 =>
      have h2 : (b :: t2).getLast? = some f := by
        rwa [List.getLast?_cons_cons] at h
      rw [List.foldl_cons]
      exact ih _ h2

/-- C1: committing a live-tracking session over a previously unseen source —
any number of polls, each recomputing the full accumulation, followed by one
save_pending_stats — leaves the player's store entry at the prior entry plus
the final accumulation and the baseline at that accumulation; the committed
contribution (final entry minus prior entry) is field-wise exactly the
record a one-shot batch import of the finished source merges for that
player, namely the source's full accumulation. -/
theorem live_commit_matches_batch_import (name : String) (d0 : Option PlayerStats)
    (snaps : List Source) (f : Source) (hlast : snaps.getLast? = some f)
    (st : DBState) (hmem : name ∈ sourcePlayers f) :
    (commitStep (snaps.foldl (pollStep name) ⟨d0, none, none⟩)).db
        = some (mergeStats d0 (calculatePlayerStats f name))
    ∧ (commitStep (snaps.foldl (pollStep name) ⟨d0, none, none⟩)).baseline
        = some (calculatePlayerStats f name)
    ∧ (∀ r, (commitStep (snaps.foldl (pollStep name) ⟨d0, none, none⟩)).db = some r →
        counterVec (subStats r (orZeroStats name d0))
          = counterVec (calculatePlayerStats f name))
    ∧ dbFind (importAllLogs [f] st).stats name = some (calculatePlayerStats f name) := by
  rw [foldl_pollStep name _ snaps f hlast]
  refine ⟨rfl, rfl, ?_, ?_⟩
  · intro r hr
    have hrv : r = mergeStats d0 (calculatePlayerStats f name) :=
      (by simpa [commitStep, savePendingPlayer] using hr : _ = r).symm
    subst hrv
    cases d0 with
    | none =>
      simp only [mergeStats, counterVec, subStats, orZeroStats, Option.getD_none,
        List.cons.injEq, and_true]
      omega
    | some d =>
      simp only [mergeStats, addStats, counterVec, subStats, orZeroStats,
        Option.getD_some, List.cons.injEq, and_true]
      omega
  · show dbFind (importSource (clearAllStats st) f).stats name = _
    simp only [importSource, clearAllStats, calculateAllPlayersStats, List.foldl_map]
    exact dbFind_foldl_mergeList (fun m => calculatePlayerStats f m)
      (fun m => calculatePlayerStats_name f m) (sourcePlayers f) name
      (nodup_dedupFold _) hmem [] rfl

/-- First poll snapshot of the C1 witness source: one preflop raise. -/
def liveWitnessSnap1 : Source :=
  { path := "live.pdb",
    players := [⟨"alice", 1, 3⟩, ⟨"bob", 1, 4⟩],
    actions := [⟨7, 1, 0, 3, "bets", none⟩] }

/-- Second poll snapshot: the same source grown by three more actions. -/
def liveWitnessSnap2 : Source :=
  { path := "live.pdb",
    players := [⟨"alice", 1, 3⟩, ⟨"bob", 1, 4⟩],
    actions := [⟨7, 1, 0, 3, "bets", none⟩, ⟨7, 1, 0, 4, "calls", none⟩,
                ⟨7, 1, 1, 3, "bets", none⟩, ⟨7, 1, 1, 4, "folds", none⟩] }

/-- Witness for C1 at a concrete two-poll live session over a fresh source:
the commit deposits exactly the finished source's accumulation, the same
record a one-shot batch import of that source stores. -/
theorem live_commit_matches_batch_import_check :
    ([liveWitnessSnap1, liveWitnessSnap2].getLast? = some liveWitnessSnap2)
    ∧ ("alice" ∈ sourcePlayers liveWitnessSnap2)
    ∧ (commitStep ([liveWitnessSnap1, liveWitnessSnap2].foldl
          (pollStep "alice") ⟨none, none, none⟩)).db
        = some (mergeStats none (calculatePlayerStats liveWitnessSnap2 "alice"))
    ∧ dbFind (importAllLogs [liveWitnessSnap2] ⟨[], []⟩).stats "alice"
        = some (calculatePlayerStats liveWitnessSnap2 "alice") := by
  have h := live_commit_matches_batch_import "alice" none
    [liveWitnessSnap1, liveWitnessSnap2] liveWitnessSnap2 rfl ⟨[], []⟩ (by decide)
  exact ⟨rfl, by decide, h.1, h.2.2.2⟩

end PokerTH
